import Mathlib

/-
  Shallow embedding of the tcping probing-and-aggregation core.

  The Go source keeps durations as time.Duration (int64 nanoseconds produced
  by time.Since, hence nonnegative) and counters as int (only ever
  incremented from zero); we model both as Nat, so Go comparisons and
  truncating division coincide with the Nat operations on every reachable
  value.  External effects (DNS lookup, dial, clock) are passed in as
  explicit arguments; printing is modelled by returning the printed record.
-/

namespace Tcping

/- Process-wide defaults, from the var block of main.go. -/
def DefaultTimeout : Int := 3
def DefaultPort : Int := 80
def DefaultNet : String := "tcp"

/- type Ping struct.  The dialer field is omitted: it is derived from
   timeout immediately before each dial and never read elsewhere. -/
structure Ping where
  net : String
  host : String
  addr : String
  port : Int
  timeout : Int
deriving DecidableEq, Repr

/- type Stats struct: one probe outcome.  Error is the optional error
   message; Time is the wall-clock timestamp. -/
structure Stats where
  Time : Int
  Duration : Nat
  Host : String
  SAddr : String
  DAddr : String
  Error : Option String
deriving DecidableEq, Repr

/- type Summary struct: the shared aggregate statistics. -/
structure Summary where
  NET : String
  MAX : Nat
  MIN : Nat
  AVG : Nat
  SUM : Nat
  Count : Nat
  ErrCount : Nat
deriving DecidableEq, Repr

/- summary := &Summary\x7bNET: ping.net\x7d in main: every numeric field is
   the zero value. -/
def initSummary (network : String) : Summary :=
  { NET := network, MAX := 0, MIN := 0, AVG := 0, SUM := 0, Count := 0, ErrCount := 0 }

/- func (p *Ping) Resolver() error, success path of lines 72-84 of the
   first variant.  The external LookupHost call is the argument: either an
   error or the address list it returned.  The result pairs the updated
   receiver with the returned error (none = nil). -/
def Ping.Resolver (p : Ping) (lookup : Except String (List String)) :
    Ping × Option String :=
  match lookup with
  | Except.error e => (p, some e)
  | Except.ok addr =>
    match addr with
    | [] => (p, some ("not found addr"))
    | a0 :: _ =>
      if a0.data.contains ':' then
        ({ p with addr := "[" ++ a0 ++ "]" }, none)
      else
        ({ p with addr := a0 }, none)

/- func (p *Ping) Ping() *Stats.  The dial call is the argument dial,
   applied to the network and destination address; on success it yields the
   local address string of the connection.  elapsed is the duration
   measured around the dial; now is the timestamp taken before dialing. -/
def Ping.Ping (p : Ping) (now : Int)
    (dial : String → String → Except String String) (elapsed : Nat) :
    Ping × Stats :=
  if p.addr = "" then
    (p, { Time := now, Duration := 0, Host := "", SAddr := "", DAddr := "",
          Error := some ("invalid host") })
  else
    let p1 := if p.port ≤ 0 then { p with port := DefaultPort } else p
    let p2 := if p1.timeout ≤ 0 then { p1 with timeout := DefaultTimeout } else p1
    let p3 := if p2.net = "" then { p2 with net := DefaultNet } else p2
    let daddr := p3.addr ++ ":" ++ toString p3.port
    match dial p3.net daddr with
    | Except.ok localAddr =>
        (p3, { Time := now, Duration := elapsed, Host := p3.host,
               SAddr := localAddr, DAddr := daddr, Error := none })
    | Except.error e =>
        (p3, { Time := now, Duration := elapsed, Host := p3.host,
               SAddr := "", DAddr := daddr, Error := some e })

/- The statistics update performed on one outcome inside the loop body of
   func (p *Ping) Do (lines 142-156): Count always increments; a success
   updates MIN (with zero as the unset sentinel), MAX and SUM; an error
   increments ErrCount.  The four assignments touch pairwise distinct
   fields, so the sequential Go assignments equal this simultaneous
   record update. -/
def Summary.record (s : Summary) (st : Stats) : Summary :=
  match st.Error with
  | none =>
      { s with
        Count := s.Count + 1
        MIN := if s.MIN > st.Duration ∨ s.MIN = 0 then st.Duration else s.MIN
        MAX := if s.MAX < st.Duration then st.Duration else s.MAX
        SUM := s.SUM + st.Duration }
  | some _ =>
      { s with Count := s.Count + 1, ErrCount := s.ErrCount + 1 }

/- Folding record over a whole sequence of outcomes, in loop order. -/
def Summary.recordAll : Summary → List Stats → Summary
  | s, [] => s
  | s, st :: rest => Summary.recordAll (Summary.record s st) rest

/- The record printed by one call of func (s *Summary) Stats(). -/
structure SummaryLine where
  net : String
  max : Nat
  min : Nat
  avg : Nat
  total : Nat
  err : Nat
deriving DecidableEq, Repr

/- func (s *Summary) Stats(): recompute AVG when there is at least one
   successful attempt, then print one line.  Returns the updated receiver
   and the printed line. -/
def Summary.Stats (s : Summary) : Summary × SummaryLine :=
  let count := s.Count - s.ErrCount
  let s2 := if 0 < count then { s with AVG := s.SUM / count } else s
  (s2, { net := s2.NET.toUpper, max := s2.MAX, min := s2.MIN, avg := s2.AVG,
         total := s2.Count, err := s2.ErrCount })

/- The probing loop of func (p *Ping) Do, after successful resolution.
   probe k is the Stats value returned by the k-th call of p.Ping() (the
   dial layer being external); count is DefaultCount; i is the Go loop
   counter, incremented only when count > 0; fuel bounds the number of
   iterations we unfold, with none meaning the loop is still running after
   fuel iterations.  On exit it returns the summary and the number of
   completed attempts.  The sleep between iterations is timing-only and is
   not modelled. -/
def runLoop (count : Int) (probe : Nat → Stats) :
    Nat → Nat → Int → Summary → Option (Summary × Nat)
  | 0, _, _, _ => none
  | Nat.succ fuel, k, i, s =>
    let s2 := Summary.record s (probe k)
    if 0 < count then
      if count ≤ i + 1 then some (s2, k + 1)
      else runLoop count probe fuel (k + 1) (i + 1) s2
    else runLoop count probe fuel (k + 1) i s2

/- func (p *Ping) Do(s *Summary): resolve; on error print it and return
   without touching the summary, otherwise run the loop and, on loop exit,
   run the deferred s.Stats() once.  The result carries the final summary,
   the number of completed probe attempts, and the number of summary
   renders; none means the loop has not finished within fuel iterations. -/
def Ping.Do (p : Tcping.Ping) (lookup : Except String (List String)) (count : Int)
    (probe : Nat → Stats) (fuel : Nat) (s : Summary) :
    Option (Summary × Nat × Nat) :=
  match (p.Resolver lookup).2 with
  | some _ => some (s, 0, 0)
  | none =>
    match runLoop count probe fuel 0 0 s with
    | none => none
    | some (s2, k) => some ((Summary.Stats s2).1, k, 1)

/- The successful durations of an outcome sequence, in order. -/
def successDurations : List Stats → List Nat
  | [] => []
  | st :: rest =>
    match st.Error with
    | none => st.Duration :: successDurations rest
    | some _ => successDurations rest

/- The number of errored outcomes of a sequence. -/
def numErrors : List Stats → Nat
  | [] => 0
  | st :: rest =>
    match st.Error with
    | none => numErrors rest
    | some _ => numErrors rest + 1

/- The outcomes fed to attempts k, k+1, ..., k+n-1, in order. -/
def probeList (probe : Nat → Stats) : Nat → Nat → List Stats
  | _, 0 => []
  | k, Nat.succ m => probe k :: probeList probe (k + 1) m

/- A concrete outcome with the given duration and error, used to evaluate
   the model on concrete inputs. -/
def mkStat (d : Nat) (e : Option String) : Stats :=
  { Time := 0, Duration := d, Host := "", SAddr := "", DAddr := "", Error := e }

/- A Ping value with every field at its zero value. -/
def pingZero : Tcping.Ping :=
  { net := "", host := "", addr := "", port := 0, timeout := 0 }

/- ### Stepwise facts about Summary.record -/

lemma record_Count (s : Summary) (st : Stats) :
    (s.record st).Count = s.Count + 1 := by
  unfold Summary.record
  cases st.Error <;> rfl

lemma record_ErrCount (s : Summary) (st : Stats) :
    (s.record st).ErrCount =
      match st.Error with
      | none => s.ErrCount
      | some _ => s.ErrCount + 1 := by
  unfold Summary.record
  cases st.Error <;> rfl

lemma record_SUM (s : Summary) (st : Stats) :
    (s.record st).SUM =
      match st.Error with
      | none => s.SUM + st.Duration
      | some _ => s.SUM := by
  unfold Summary.record
  cases st.Error <;> rfl

lemma record_AVG (s : Summary) (st : Stats) :
    (s.record st).AVG = s.AVG := by
  unfold Summary.record
  cases st.Error <;> rfl

lemma record_NET (s : Summary) (st : Stats) :
    (s.record st).NET = s.NET := by
  unfold Summary.record
  cases st.Error <;> rfl

/- The MIN update of the loop body, as a two-argument accumulator. -/
def minAcc (m d : Nat) : Nat := if m > d ∨ m = 0 then d else m

/- The MAX update of the loop body, as a two-argument accumulator. -/
def maxAcc (m d : Nat) : Nat := if m < d then d else m

lemma record_MIN (s : Summary) (st : Stats) :
    (s.record st).MIN =
      match st.Error with
      | none => minAcc s.MIN st.Duration
      | some _ => s.MIN := by
  unfold Summary.record minAcc
  cases st.Error <;> rfl

lemma record_MAX (s : Summary) (st : Stats) :
    (s.record st).MAX =
      match st.Error with
      | none => maxAcc s.MAX st.Duration
      | some _ => s.MAX := by
  unfold Summary.record maxAcc
  cases st.Error <;> rfl

/- ### Facts about recordAll, by induction over the outcome list -/

lemma recordAll_Count (os : List Stats) : ∀ s : Summary,
    (s.recordAll os).Count = s.Count + os.length := by
  induction os with
  | nil => intro s; simp [Summary.recordAll]
  | cons st rest ih =>
    intro s
    simp only [Summary.recordAll, ih, record_Count, List.length_cons]
    omega

lemma recordAll_ErrCount (os : List Stats) : ∀ s : Summary,
    (s.recordAll os).ErrCount = s.ErrCount + numErrors os := by
  induction os with
  | nil => intro s; simp [Summary.recordAll, numErrors]
  | cons st rest ih =>
    intro s
    simp only [Summary.recordAll, ih, record_ErrCount, numErrors]
    cases st.Error <;> simp <;> omega

lemma recordAll_SUM (os : List Stats) : ∀ s : Summary,
    (s.recordAll os).SUM = s.SUM + (successDurations os).sum := by
  induction os with
  | nil => intro s; simp [Summary.recordAll, successDurations]
  | cons st rest ih =>
    intro s
    simp only [Summary.recordAll, ih, record_SUM, successDurations]
    cases st.Error <;> simp <;> omega

lemma recordAll_AVG (os : List Stats) : ∀ s : Summary,
    (s.recordAll os).AVG = s.AVG := by
  induction os with
  | nil => intro s; rfl
  | cons st rest ih => intro s; simp only [Summary.recordAll, ih, record_AVG]

lemma recordAll_MIN (os : List Stats) : ∀ s : Summary,
    (s.recordAll os).MIN = (successDurations os).foldl minAcc s.MIN := by
  induction os with
  | nil => intro s; rfl
  | cons st rest ih =>
    intro s
    simp only [Summary.recordAll, ih, successDurations]
    cases h : st.Error <;> simp [record_MIN, h, List.foldl]

lemma recordAll_MAX (os : List Stats) : ∀ s : Summary,
    (s.recordAll os).MAX = (successDurations os).foldl maxAcc s.MAX := by
  induction os with
  | nil => intro s; rfl
  | cons st rest ih =>
    intro s
    simp only [Summary.recordAll, ih, successDurations]
    cases h : st.Error <;> simp [record_MAX, h, List.foldl]

/- Every attempt is either a success or an error. -/
lemma length_split (os : List Stats) :
    os.length = (successDurations os).length + numErrors os := by
  induction os with
  | nil => rfl
  | cons st rest ih =>
    simp only [List.length_cons, successDurations, numErrors]
    cases st.Error <;> simp <;> omega

/-- **C5**: After every recorded outcome sequence (each observation point of
the single-threaded loop corresponds to one such sequence), the aggregate
Count equals successes plus errors, which is the total number of completed
attempts. -/
theorem count_eq_successes_plus_errors (network : String) (os : List Stats) :
    ((initSummary network).recordAll os).Count
        = (successDurations os).length + numErrors os
      ∧ ((initSummary network).recordAll os).Count = os.length := by
  have h := recordAll_Count os (initSummary network)
  have h2 := length_split os
  have h0 : (initSummary network).Count = 0 := rfl
  omega

/-- **C6**: At every observation point, SUM equals the sum of the durations
of all successful (error-free) outcomes recorded so far; errored outcomes
contribute nothing. -/
theorem sum_eq_sum_of_success_durations (network : String) (os : List Stats) :
    ((initSummary network).recordAll os).SUM = (successDurations os).sum := by
  have h := recordAll_SUM os (initSummary network)
  simpa [initSummary] using h

/- ### Order facts about the MIN and MAX accumulators -/

lemma minAcc_le_right (m d : Nat) : minAcc m d ≤ d := by
  unfold minAcc; split <;> omega

lemma minAcc_le_left (m d : Nat) (hm : m ≠ 0) : minAcc m d ≤ m := by
  unfold minAcc; split <;> omega

lemma minAcc_ne_zero (m d : Nat) (hd : d ≠ 0) : minAcc m d ≠ 0 := by
  unfold minAcc; split <;> omega

lemma foldl_minAcc_le_self (l : List Nat) : ∀ m, m ≠ 0 → (∀ x ∈ l, x ≠ 0) →
    l.foldl minAcc m ≤ m := by
  induction l with
  | nil => intro m _ _; simp
  | cons x rest ih =>
    intro m hm hl
    have hx : x ≠ 0 := hl x (by simp)
    have h1 : rest.foldl minAcc (minAcc m x) ≤ minAcc m x :=
      ih (minAcc m x) (minAcc_ne_zero m x hx) (fun y hy => hl y (by simp [hy]))
    calc rest.foldl minAcc (minAcc m x) ≤ minAcc m x := h1
      _ ≤ m := minAcc_le_left m x hm

lemma foldl_minAcc_le_mem (l : List Nat) : ∀ m, (∀ x ∈ l, x ≠ 0) →
    ∀ d ∈ l, l.foldl minAcc m ≤ d := by
  induction l with
  | nil => intro m _ d hd; simp at hd
  | cons x rest ih =>
    intro m hl d hd
    have hx : x ≠ 0 := hl x (by simp)
    have hrest : ∀ y ∈ rest, y ≠ 0 := fun y hy => hl y (by simp [hy])
    rcases List.mem_cons.mp hd with h | h
    · subst h
      calc (d :: rest).foldl minAcc m = rest.foldl minAcc (minAcc m d) := rfl
        _ ≤ minAcc m d := foldl_minAcc_le_self rest _ (minAcc_ne_zero m d hx) hrest
        _ ≤ d := minAcc_le_right m d
    · exact ih (minAcc m x) hrest d h

lemma le_maxAcc_left (m d : Nat) : m ≤ maxAcc m d := by
  unfold maxAcc; split <;> omega

lemma le_maxAcc_right (m d : Nat) : d ≤ maxAcc m d := by
  unfold maxAcc; split <;> omega

lemma le_foldl_maxAcc (l : List Nat) : ∀ m, m ≤ l.foldl maxAcc m := by
  induction l with
  | nil => intro m; simp
  | cons x rest ih =>
    intro m
    calc m ≤ maxAcc m x := le_maxAcc_left m x
      _ ≤ rest.foldl maxAcc (maxAcc m x) := ih (maxAcc m x)

lemma mem_le_foldl_maxAcc (l : List Nat) : ∀ m, ∀ d ∈ l, d ≤ l.foldl maxAcc m := by
  induction l with
  | nil => intro m d hd; simp at hd
  | cons x rest ih =>
    intro m d hd
    rcases List.mem_cons.mp hd with h | h
    · subst h
      calc d ≤ maxAcc m d := le_maxAcc_right m d
        _ ≤ rest.foldl maxAcc (maxAcc m d) := le_foldl_maxAcc rest _
    · exact ih (maxAcc m x) d h

/-- **C1 counterexample**: the claim includes a success of duration exactly
zero, but the loop uses zero as the "MIN not yet set" sentinel, so a later
success resets MIN above the recorded zero duration: after the outcomes
(success, 0 ns) then (success, 5 ns), MIN is 5 while 0 is a recorded
successful duration. -/
theorem min_invariant_zero_duration_cex :
    0 ∈ successDurations [mkStat 0 none, mkStat 5 none]
      ∧ ((initSummary ("tcp")).recordAll [mkStat 0 none, mkStat 5 none]).MIN = 5
      ∧ ¬ ((initSummary ("tcp")).recordAll [mkStat 0 none, mkStat 5 none]).MIN ≤ 0 := by
  refine ⟨by decide, by decide, by decide⟩

/-- **C1 (amended)**: at every observation point, provided no successful
outcome recorded so far has duration exactly zero, every recorded
successful duration d satisfies MIN ≤ d ≤ MAX. -/
theorem min_le_success_le_max (network : String) (os : List Stats)
    (hnz : ∀ d ∈ successDurations os, d ≠ 0) :
    ∀ d ∈ successDurations os,
      ((initSummary network).recordAll os).MIN ≤ d
        ∧ d ≤ ((initSummary network).recordAll os).MAX := by
  intro d hd
  have hmin := recordAll_MIN os (initSummary network)
  have hmax := recordAll_MAX os (initSummary network)
  refine ⟨?_, ?_⟩
  · rw [hmin]
    exact foldl_minAcc_le_mem (successDurations os) _ hnz d hd
  · rw [hmax]
    exact mem_le_foldl_maxAcc (successDurations os) _ d hd

/-- **C1 witness**: the amended theorem evaluated on the outcome sequence
(success 7 ns, error, success 3 ns): MIN = 3 ≤ each of 7, 3 ≤ MAX = 7. -/
theorem min_le_success_le_max_witness :
    ((initSummary ("tcp")).recordAll [mkStat 7 none, mkStat 9 (some ("refused")), mkStat 3 none]).MIN ≤ 7
      ∧ 7 ≤ ((initSummary ("tcp")).recordAll [mkStat 7 none, mkStat 9 (some ("refused")), mkStat 3 none]).MAX :=
  min_le_success_le_max "tcp" [mkStat 7 none, mkStat 9 (some ("refused")), mkStat 3 none]
    (by decide) 7 (by decide)

/- ### Summary.Stats: the rendered average and the frame of the render -/

lemma Stats_avg (s : Summary) :
    ((s.Stats).2).avg =
      if 0 < s.Count - s.ErrCount then s.SUM / (s.Count - s.ErrCount) else s.AVG := by
  by_cases h : 0 < s.Count - s.ErrCount <;> simp [Summary.Stats, h]

/-- **C2**: whenever at least one successful attempt has been recorded, the
rendered average equals SUM / (Count - ErrCount); with no successful
attempt recorded, the rendered average is the defined zero value (the
division guard keeps the divisor positive, so no division by zero is ever
performed). -/
theorem rendered_avg_guarded (network : String) (os : List Stats) :
    (0 < (successDurations os).length →
        ((((initSummary network).recordAll os).Stats).2).avg
          = ((initSummary network).recordAll os).SUM
              / (((initSummary network).recordAll os).Count
                  - ((initSummary network).recordAll os).ErrCount))
      ∧ ((successDurations os).length = 0 →
          ((((initSummary network).recordAll os).Stats).2).avg = 0) := by
  have hC := recordAll_Count os (initSummary network)
  have hE := recordAll_ErrCount os (initSummary network)
  have hA := recordAll_AVG os (initSummary network)
  have hL := length_split os
  have hC0 : (initSummary network).Count = 0 := rfl
  have hE0 : (initSummary network).ErrCount = 0 := rfl
  have hA0 : (initSummary network).AVG = 0 := rfl
  have hsub : ((initSummary network).recordAll os).Count
      - ((initSummary network).recordAll os).ErrCount
      = (successDurations os).length := by omega
  constructor
  · intro hpos
    rw [Stats_avg, hsub, if_pos hpos]
  · intro hzero
    rw [Stats_avg, hsub, hzero, if_neg (by omega), hA, hA0]

/-- **C2 witness**: with outcomes (success 5 ns, error, success 9 ns) the
rendered average is SUM / (Count - ErrCount); with a single errored
outcome it is zero. -/
theorem rendered_avg_guarded_witness :
    ((((initSummary ("tcp")).recordAll [mkStat 5 none, mkStat 2 (some ("x")), mkStat 9 none]).Stats).2).avg
        = ((initSummary ("tcp")).recordAll [mkStat 5 none, mkStat 2 (some ("x")), mkStat 9 none]).SUM
            / (((initSummary ("tcp")).recordAll [mkStat 5 none, mkStat 2 (some ("x")), mkStat 9 none]).Count
                - ((initSummary ("tcp")).recordAll [mkStat 5 none, mkStat 2 (some ("x")), mkStat 9 none]).ErrCount)
      ∧ ((((initSummary ("tcp")).recordAll [mkStat 4 (some ("x"))]).Stats).2).avg = 0 :=
  ⟨(rendered_avg_guarded ("tcp") [mkStat 5 none, mkStat 2 (some ("x")), mkStat 9 none]).1 (by decide),
   (rendered_avg_guarded ("tcp") [mkStat 4 (some ("x"))]).2 (by decide)⟩

/-- **C8**: rendering the summary leaves Count, ErrCount, MIN, MAX, SUM and
NET unchanged — only the derived AVG field may be rewritten, as a function
of the other fields — so a second render with no interleaving update
produces the same state and the same printed line as the first. -/
theorem stats_render_frame (s : Summary) :
    ((s.Stats).1).Count = s.Count
      ∧ ((s.Stats).1).ErrCount = s.ErrCount
      ∧ ((s.Stats).1).MIN = s.MIN
      ∧ ((s.Stats).1).MAX = s.MAX
      ∧ ((s.Stats).1).SUM = s.SUM
      ∧ ((s.Stats).1).NET = s.NET
      ∧ ((s.Stats).1).Stats = s.Stats := by
  by_cases h : 0 < s.Count - s.ErrCount <;> simp [Summary.Stats, h]

/- ### Resolver and single probe attempt -/

/-- **C7**: the Resolver returns a nil error exactly when the lookup
succeeds with a nonempty address list; in that case the resolved address
becomes the first entry, wrapped in square brackets when it contains a
colon and unbracketed otherwise. -/
theorem resolver_contract (p : Tcping.Ping) (lookup : Except String (List String)) :
    ((p.Resolver lookup).2 = none ↔ ∃ a rest, lookup = Except.ok (a :: rest))
      ∧ (∀ a rest, lookup = Except.ok (a :: rest) →
          ((p.Resolver lookup).1).addr
            = if a.data.contains ':' then "[" ++ a ++ "]" else a) := by
  constructor
  · constructor
    · intro h
      match lookup with
      | Except.error e => simp [Ping.Resolver] at h
      | Except.ok [] => simp [Ping.Resolver] at h
      | Except.ok (a0 :: rest) => exact ⟨a0, rest, rfl⟩
    · rintro ⟨a, rest, rfl⟩
      by_cases h : ':' ∈ a.data <;> simp [Ping.Resolver, h]
  · rintro a rest rfl
    by_cases h : ':' ∈ a.data <;> simp [Ping.Resolver, h]

/-- **C7 witness**: an IPv6 first entry is bracketed and the returned
error is nil; evaluated on the lookup result consisting of the single
entry colon-colon-one. -/
theorem resolver_contract_witness :
    (pingZero.Resolver (Except.ok (["::1"]))).2 = none
      ∧ ((pingZero.Resolver (Except.ok (["::1"]))).1).addr = "[::1]" := by
  refine ⟨(resolver_contract pingZero (Except.ok (["::1"]))).1.mpr ⟨"::1", [], rfl⟩, ?_⟩
  have h := (resolver_contract pingZero (Except.ok (["::1"]))).2 "::1" [] rfl
  rw [h]
  decide

/-- **C10**: whenever the Resolver returns a non-nil error (lookup failure
or an empty address list), the receiver is returned entirely unchanged: in
particular the resolved-address field keeps its prior value. -/
theorem resolver_no_partial_mutation (p : Tcping.Ping)
    (lookup : Except String (List String))
    (h : (p.Resolver lookup).2 ≠ none) :
    (p.Resolver lookup).1 = p := by
  match lookup with
  | Except.error e => rfl
  | Except.ok [] => rfl
  | Except.ok (a0 :: rest) =>
    exfalso
    apply h
    by_cases hc : ':' ∈ a0.data <;> simp [Ping.Resolver, hc]

/-- **C10 witness**: a failing lookup leaves the zero-valued Ping record
unchanged. -/
theorem resolver_no_partial_mutation_witness :
    (pingZero.Resolver (Except.error ("no such host"))).1 = pingZero :=
  resolver_no_partial_mutation pingZero (Except.error ("no such host")) (by decide)

/-- **C9**: with an empty resolved address, a probe attempt returns the
error "invalid host" without mutating the target (so none of the lazy
port / timeout / transport defaults is applied) and without consulting the
dial or the measured elapsed time at all. -/
theorem ping_invalid_host (p : Tcping.Ping) (now : Int)
    (dial : String → String → Except String String) (elapsed : Nat)
    (h : p.addr = "") :
    ((p.Ping now dial elapsed).2).Error = some ("invalid host")
      ∧ (p.Ping now dial elapsed).1 = p
      ∧ ∀ (dial2 : String → String → Except String String) (elapsed2 : Nat),
          p.Ping now dial elapsed = p.Ping now dial2 elapsed2 := by
  refine ⟨?_, ?_, ?_⟩
  · simp [Ping.Ping, h]
  · simp [Ping.Ping, h]
  · intro dial2 elapsed2
    simp [Ping.Ping, h]

/-- **C9 witness**: the unresolved zero-valued target yields the
"invalid host" outcome unchanged by the choice of dial function. -/
theorem ping_invalid_host_witness :
    ((pingZero.Ping 0 (fun _ _ => Except.error ("refused")) 7).2).Error
        = some ("invalid host")
      ∧ (pingZero.Ping 0 (fun _ _ => Except.error ("refused")) 7).1 = pingZero
      ∧ pingZero.Ping 0 (fun _ _ => Except.error ("refused")) 7
          = pingZero.Ping 0 (fun _ _ => Except.ok ("a:1")) 9 := by
  have h := ping_invalid_host pingZero 0 (fun _ _ => Except.error ("refused")) 7 rfl
  exact ⟨h.1, h.2.1, h.2.2 (fun _ _ => Except.ok ("a:1")) 9⟩

/- ### The probing loop: attempt budget and termination -/

/- With a positive budget c and i + n = c remaining iterations, the loop
   runs exactly n more attempts, recording probe k, ..., probe (k+n-1), and
   exits, provided at least n units of fuel are available. -/
lemma runLoop_terminates (probe : Nat → Stats) (c : Int) (hc : 0 < c) :
    ∀ n : Nat, 0 < n → ∀ (fuel k : Nat) (i : Int) (s : Summary),
      i + (n : Int) = c → n ≤ fuel →
      runLoop c probe fuel k i s
        = some (Summary.recordAll s (probeList probe k n), k + n) := by
  intro n
  induction n with
  | zero => intro h; omega
  | succ m ih =>
    intro _ fuel k i s hi hf
    cases fuel with
    | zero => omega
    | succ f =>
      rw [runLoop]
      rw [if_pos hc]
      by_cases hm : m = 0
      · subst hm
        rw [if_pos (by omega)]
        simp [probeList, Summary.recordAll]
      · rw [if_neg (by omega)]
        have step := ih (by omega) f (k + 1) (i + 1) (Summary.record s (probe k))
          (by push_cast at hi ⊢; omega) (by omega)
        rw [step]
        simp only [probeList, Summary.recordAll, Option.some.injEq, Prod.mk.injEq,
          true_and]
        omega

/- With a nonpositive budget the loop never exits: every finite amount of
   fuel is exhausted with the loop still running. -/
lemma runLoop_unbounded (probe : Nat → Stats) (c : Int) (hc : c ≤ 0) :
    ∀ (fuel k : Nat) (i : Int) (s : Summary),
      runLoop c probe fuel k i s = none := by
  intro fuel
  induction fuel with
  | zero => intro k i s; rfl
  | succ f ih =>
    intro k i s
    rw [runLoop]
    rw [if_neg (by omega)]
    exact ih (k + 1) i _

/- A lookup that returns at least one address makes the Resolver succeed. -/
lemma resolver_ok_of_cons (p : Tcping.Ping) (a : String) (rest : List String) :
    (p.Resolver (Except.ok (a :: rest))).2 = none := by
  by_cases h : ':' ∈ a.data <;> simp [Ping.Resolver, h]

/-- **C3**: after a successful resolution, a positive configured count c
makes the loop perform exactly c probe attempts (recording the outcomes of
attempts 0, ..., c-1 in order) and then terminate, rendering the final
summary exactly once over the fully recorded state; a count of zero or
less makes the single-threaded loop unbounded: no amount of fuel completes
it. -/
theorem do_attempt_budget (p : Tcping.Ping) (a : String) (rest : List String)
    (count : Int) (probe : Nat → Stats) (fuel : Nat) (s : Summary) :
    (0 < count → count.toNat ≤ fuel →
        p.Do (Except.ok (a :: rest)) count probe fuel s
          = some (((Summary.recordAll s (probeList probe 0 count.toNat)).Stats).1,
                  count.toNat, 1))
      ∧ (count ≤ 0 → p.Do (Except.ok (a :: rest)) count probe fuel s = none) := by
  have hres := resolver_ok_of_cons p a rest
  constructor
  · intro hc hf
    have hrun := runLoop_terminates probe count hc count.toNat (by omega) fuel 0 0 s
      (by omega) hf
    unfold Ping.Do
    rw [hres, hrun]
    simp
  · intro hc
    have hrun := runLoop_unbounded probe count hc fuel 0 0 s
    unfold Ping.Do
    rw [hres, hrun]

/-- **C3 witness**: with count 2 the loop completes exactly 2 attempts and
renders once; with count 0 it never finishes (here: not within 7
iterations, and the theorem gives this for every fuel). -/
theorem do_attempt_budget_witness :
    pingZero.Do (Except.ok (["1.2.3.4"])) 2 (fun _ => mkStat 5 none) 2 (initSummary ("tcp"))
        = some (((Summary.recordAll (initSummary ("tcp"))
                    (probeList (fun _ => mkStat 5 none) 0 2)).Stats).1, 2, 1)
      ∧ pingZero.Do (Except.ok (["1.2.3.4"])) 0 (fun _ => mkStat 5 none) 7 (initSummary ("tcp"))
          = none := by
  constructor
  · exact (do_attempt_budget pingZero "1.2.3.4" [] 2 (fun _ => mkStat 5 none) 2
      (initSummary ("tcp"))).1 (by decide) (by decide)
  · exact (do_attempt_budget pingZero "1.2.3.4" [] 0 (fun _ => mkStat 5 none) 7
      (initSummary ("tcp"))).2 (by decide)

/-- **C4**: when resolution fails (lookup error or empty address list), Do
returns at once: zero probe attempts are issued, the summary renderer is
never invoked, and the aggregate state is untouched. -/
theorem do_resolution_failure (p : Tcping.Ping) (lookup : Except String (List String))
    (count : Int) (probe : Nat → Stats) (fuel : Nat) (s : Summary)
    (h : ((p.Resolver lookup).2).isSome = true) :
    p.Do lookup count probe fuel s = some (s, 0, 0) := by
  obtain ⟨e, he⟩ := Option.isSome_iff_exists.mp h
  simp [Ping.Do, he]

/-- **C4 witness**: a failing lookup yields zero attempts and zero summary
renders, with the summary state unchanged. -/
theorem do_resolution_failure_witness :
    pingZero.Do (Except.error ("no such host")) 10 (fun _ => mkStat 5 none) 3
        (initSummary ("tcp"))
      = some (initSummary ("tcp"), 0, 0) :=
  do_resolution_failure pingZero (Except.error ("no such host")) 10
    (fun _ => mkStat 5 none) 3 (initSummary ("tcp")) (by decide)

end Tcping
